import Mathlib

/-!
Verification of the atomate2 MPMorph / EOS / OpenMM-anneal subsystem.

Shallow embedding conventions:
* Python floats are embedded as exact rationals (`ℚ`); Python ints as `ℤ` or `ℕ`.
* Python dictionaries are embedded as association lists; object identity (aliasing
  through a shared mutable dictionary) is embedded with an explicit store
  (`Store`, a list of inner dictionaries addressed by index) so that a shallow
  copy of an outer dictionary shares the addresses of the inner ones.
* Fallible code returns `Option`.
* External numerical collaborators (the pymatgen EOS solvers, the MD engine) are
  oracles passed as function parameters; everything this repository does with
  their answers is embedded from the source.
-/

/-! ## `create_list_summing_to`
Embedded from `src/atomate2/classical_md/utils.py` (lines 395-414); a verbatim
copy of the same function exists in `src/atomate2/openmm/utils.py` (lines
226-245), so one embedding covers both.

Python source:
  div, mod = total_sum // n_pieces, total_sum % n_pieces
  return [div + 1] * mod + [div] * (n_pieces - mod)

Python `//` is floor division and `%` its companion remainder, embedded as
`Int.fdiv` / `Int.fmod`; `[x] * k` for a negative `k` is the empty list, which
`Int.toNat` reproduces. -/
def create_list_summing_to (total_sum n_pieces : ℤ) : List ℤ :=
  let d := Int.fdiv total_sum n_pieces
  let m := Int.fmod total_sum n_pieces
  List.replicate m.toNat (d + 1) ++ List.replicate (n_pieces - m).toNat d

theorem create_list_summing_to_def (total_sum n_pieces : ℤ) :
    create_list_summing_to total_sum n_pieces =
      List.replicate (Int.fmod total_sum n_pieces).toNat (Int.fdiv total_sum n_pieces + 1) ++
        List.replicate (n_pieces - Int.fmod total_sum n_pieces).toNat
          (Int.fdiv total_sum n_pieces) := rfl

/-- C9: for every `total_sum ≥ 0` and `n_pieces ≥ 1`, `create_list_summing_to`
returns a list of exactly `n_pieces` nonnegative integers that sum exactly to
`total_sum`, with any two elements differing by at most 1 and the larger
elements placed first. -/
theorem create_list_summing_to_spec (total_sum n_pieces : ℤ)
    (htot : 0 ≤ total_sum) (hn : 1 ≤ n_pieces) :
    ((create_list_summing_to total_sum n_pieces).length : ℤ) = n_pieces ∧
    (create_list_summing_to total_sum n_pieces).sum = total_sum ∧
    (∀ x ∈ create_list_summing_to total_sum n_pieces, 0 ≤ x) ∧
    (∀ x ∈ create_list_summing_to total_sum n_pieces,
      ∀ y ∈ create_list_summing_to total_sum n_pieces, x - y ≤ 1) ∧
    List.Sorted (· ≥ ·) (create_list_summing_to total_sum n_pieces) := by
  have hnpos : 0 < n_pieces := hn
  have hnn : (0 : ℤ) ≤ n_pieces := le_of_lt hnpos
  rw [create_list_summing_to_def, Int.fdiv_eq_ediv _ hnn, Int.fmod_eq_emod _ hnn]
  set d := total_sum / n_pieces with hd
  set m := total_sum % n_pieces with hm
  have hm0 : 0 ≤ m := Int.emod_nonneg total_sum (ne_of_gt hnpos)
  have hmlt : m < n_pieces := Int.emod_lt_of_pos total_sum hnpos
  have hdm : n_pieces * d + m = total_sum := Int.ediv_add_emod total_sum n_pieces
  have hd0 : 0 ≤ d := Int.ediv_nonneg htot hnn
  have hmem : ∀ x : ℤ,
      x ∈ List.replicate m.toNat (d + 1) ++ List.replicate (n_pieces - m).toNat d →
        x = d + 1 ∨ x = d := by
    intro x hx
    rcases List.mem_append.1 hx with hx | hx
    · exact Or.inl (List.eq_of_mem_replicate hx)
    · exact Or.inr (List.eq_of_mem_replicate hx)
  refine ⟨?_, ?_, ?_, ?_, ?_⟩
  · simp only [List.length_append, List.length_replicate]
    omega
  · rw [List.sum_append, List.sum_replicate, List.sum_replicate, nsmul_eq_mul, nsmul_eq_mul,
      Int.toNat_of_nonneg hm0, Int.toNat_of_nonneg (by omega : (0 : ℤ) ≤ n_pieces - m)]
    have hring : m * (d + 1) + (n_pieces - m) * d = n_pieces * d + m := by ring
    rw [hring, hdm]
  · intro x hx
    rcases hmem x hx with rfl | rfl <;> omega
  · intro x hx y hy
    rcases hmem x hx with rfl | rfl <;> rcases hmem y hy with rfl | rfl <;> omega
  · refine List.pairwise_append.2 ⟨?_, ?_, ?_⟩
    · exact List.pairwise_replicate.2 (Or.inr (le_refl _))
    · exact List.pairwise_replicate.2 (Or.inr (le_refl _))
    · intro x hx y hy
      rw [List.eq_of_mem_replicate hx, List.eq_of_mem_replicate hy]
      omega

/-- Witness for C9 at the concrete input `total_sum = 7`, `n_pieces = 3`:
the returned list is `[3, 2, 2]`. -/
theorem create_list_summing_to_spec_witness :
    ((create_list_summing_to 7 3).sum = 7 ∧ ((create_list_summing_to 7 3).length : ℤ) = 3) ∧
      create_list_summing_to 7 3 = [3, 2, 2] :=
  ⟨⟨(create_list_summing_to_spec 7 3 (by decide) (by decide)).2.1,
    (create_list_summing_to_spec 7 3 (by decide) (by decide)).1⟩, by decide⟩

/-! ## OpenMM anneal flow: `AnnealMaker` and `TempChangeMaker`
Embedded from `src/atomate2/classical_md/openmm/flows/core.py` (AnnealMaker.make,
AnnealMaker.from_temps_and_steps) and
`src/atomate2/classical_md/openmm/jobs/core.py` (TempChangeMaker.run_openmm).

Temperatures are rationals (kelvin magnitudes; the openmm unit wrappers carry no
numeric content). A simulation stage is a pair `(temperature, md_steps)`:
`integrator.setTemperature(temp)` followed by `sim.step(md_steps)`. -/

/-- `numpy.arange(start, stop, step)`: the arithmetic progression
`start, start + step, ...` of length `max 0 ⌈(stop - start) / step⌉`
(numpy's documented length formula). `step = 0` raises in numpy and is given
the empty list here; no call site below uses it. -/
def arange (start stop step : ℚ) : List ℚ :=
  if step = 0 then []
  else (List.range (Int.toNat ⌈(stop - start) / step⌉)).map fun i => start + (i : ℚ) * step

/-- `TempChangeMaker.run_openmm` (jobs/core.py lines 88-101): from the resolved
`starting_temperature` to the maker's `temperature` it computes
`temp_step_size = abs(temperature - starting_temperature) / temp_steps` and, for
each `temp` in `np.arange(start + temp_step_size, end + temp_step_size,
temp_step_size)`, sets the integrator temperature to `temp` and runs
`steps // temp_steps` MD steps. The result is the list of `(temperature,
md_steps)` stages executed, in order. -/
def tempChangeStages (starting_temperature temperature : ℚ) (steps temp_steps : ℕ) :
    List (ℚ × ℕ) :=
  let temp_step_size := |temperature - starting_temperature| / (temp_steps : ℚ)
  (arange (starting_temperature + temp_step_size) (temperature + temp_step_size)
      temp_step_size).map fun t => (t, steps / temp_steps)

/-- `AnnealMaker.from_temps_and_steps` + `AnnealMaker.make` (flows/core.py lines
104-199) as the sequence of simulation stages the three chained jobs execute:
the raise-temp job (a `TempChangeMaker` from the previous task's temperature
`prevTemp` up to `anneal_temp`, `steps // 3` total steps), then the hold job (an
NVT run at `anneal_temp` for `steps // 3 + steps % 3` ... precisely
`steps - 2 * (steps // 3)` is given to the *lower* maker and the hold gets
`steps // 3`), then the lower-temp job (a `TempChangeMaker` from `anneal_temp`
down to `final_temp`, `steps - 2 * (steps // 3)` total steps). Each job's output
task document is the next job's input (`make` wires
`raise_temp_job.output.calculation_output.input_set` into `nvt_job`, and
`nvt_job`'s output into `lower_temp_job`), which is why the lower job's
starting temperature resolves to `anneal_temp`. -/
def annealStages (prevTemp anneal_temp final_temp : ℚ) (steps temp_steps : ℕ) :
    List (ℚ × ℕ) :=
  tempChangeStages prevTemp anneal_temp (steps / 3) temp_steps
    ++ [(anneal_temp, steps / 3)]
    ++ tempChangeStages anneal_temp final_temp (steps - 2 * (steps / 3)) temp_steps

/-- Threading the simulation state through a stage list: the state is the pair
(current integrator temperature, total MD steps executed so far); each stage
sets the temperature and advances by its step count. -/
def runStages (initTemp : ℚ) (stages : List (ℚ × ℕ)) : ℚ × ℕ :=
  stages.foldl (fun st stage => (stage.1, st.2 + stage.2)) (initTemp, 0)

/-- C8 (code bug evidence): with `AnnealMaker.from_temps_and_steps`'s default
parameters (`anneal_temp = 400`, `final_temp = 298`, `steps = 1500000`,
`temp_steps = 100`, previous temperature 298), the lower-temp stage list is
*empty* — `np.arange(start + h, end + h, h)` with `h = |end - start| /
temp_steps > 0` and `end < start` iterates zero times — so the cooling job sets
no temperature and runs zero MD steps, and the whole anneal ends at 400 K, not
at `final_temp = 298` K, contradicting the claimed staged ramp-down (and
`AnnealMaker.make`'s own docstring "After heating, and holding, the system will
cool to its original temperature"). -/
theorem tempChangeStages_eq_nil_of_lt (s e : ℚ) (steps tsteps : ℕ)
    (h : e < s) (ht : 0 < tsteps) : tempChangeStages s e steps tsteps = [] := by
  have hd : (0 : ℚ) < |e - s| / (tsteps : ℚ) :=
    div_pos (abs_pos.2 (by linarith)) (by exact_mod_cast ht)
  simp only [tempChangeStages, arange]
  rw [if_neg (ne_of_gt hd)]
  have hq : (e + |e - s| / (tsteps : ℚ) - (s + |e - s| / (tsteps : ℚ))) /
      (|e - s| / (tsteps : ℚ)) ≤ 0 :=
    div_nonpos_of_nonpos_of_nonneg (by linarith) (le_of_lt hd)
  have hceil : (⌈(e + |e - s| / (tsteps : ℚ) - (s + |e - s| / (tsteps : ℚ))) /
      (|e - s| / (tsteps : ℚ))⌉ : ℤ) ≤ 0 := by
    rw [Int.ceil_le]
    exact_mod_cast hq
  rw [Int.toNat_of_nonpos hceil]
  rfl

theorem runStages_append_last (init t : ℚ) (s : ℕ) (xs : List (ℚ × ℕ)) :
    (runStages init (xs ++ [(t, s)])).1 = t := by
  simp [runStages, List.foldl_append]

theorem annealStages_default_cooling_is_empty :
    tempChangeStages 400 298 500000 100 = [] ∧
      runStages 400 (tempChangeStages 400 298 500000 100) = (400, 0) ∧
      (runStages 298 (annealStages 298 400 298 1500000 100)).1 = 400 ∧
      (400 : ℚ) ≠ 298 := by
  have hnil : tempChangeStages 400 298 500000 100 = [] :=
    tempChangeStages_eq_nil_of_lt 400 298 500000 100 (by norm_num) (by norm_num)
  refine ⟨hnil, by rw [hnil]; rfl, ?_, by norm_num⟩
  have hsplit : annealStages 298 400 298 1500000 100 =
      tempChangeStages 298 400 500000 100 ++ [((400 : ℚ), 500000)] := by
    have hnum : (1500000 : ℕ) - 2 * (1500000 / 3) = 500000 := by norm_num
    have hnum2 : (1500000 : ℕ) / 3 = 500000 := by norm_num
    show tempChangeStages 298 400 (1500000 / 3) 100 ++ [((400 : ℚ), 1500000 / 3)]
        ++ tempChangeStages 400 298 (1500000 - 2 * (1500000 / 3)) 100 = _
    rw [hnum, hnum2, hnil]
    simp
  rw [hsplit, runStages_append_last]

/-! ## `postprocess_EOS`
Embedded from `src/atomate2/vasp/jobs/EOS/base.py` (lines 36-65).

Python dictionaries are association lists; the mutable inner dictionaries
(`data_dict["relax"]`, `data_dict["static"]`) live in a `Store` addressed by
index, so that `output = data_dict.copy()` — a *shallow* copy — shares the
inner addresses with the caller's `data_dict`, exactly as in CPython.

The pymatgen `EOS(eos_name=eos_name).fit(volumes, energies)` call is an oracle
`fit : String → List ℚ → List ℚ → Option FitResult`: pymatgen signals every
failure on this path with `EOSError` (an unsupported/malformed `eos_name`
raises `EOSError` in `EOS.__init__`, and a diverged numerical fit raises
`EOSError` in `fit`), which is exactly the exception class the source catches,
so `none` plays the role of "raised `EOSError`". The source is deterministic in
the oracle's answers. -/

/-- One successful pymatgen fit as stored by the source:
`{**eos.results, "b0 GPa": float(eos.b0_GPa)}`, i.e. the `results` fields
`e0`, `b0`, `b1`, `v0` merged with the derived `b0 GPa` value. -/
structure FitResult where
  e0 : ℚ
  b0 : ℚ
  b1 : ℚ
  v0 : ℚ
  b0GPa : ℚ
deriving DecidableEq

/-- Per-model entry of the output `EOS` table: `none` embeds the empty dict
`{}` recorded when the model's fit raised `EOSError`. -/
abbrev EOSEntry := Option FitResult

/-- A value of an inner dictionary: the float lists under keys such as
`volumes` / `energies`, or the `EOS` table inserted by `postprocess_EOS`. -/
inductive Val where
  | nums (xs : List ℚ)
  | table (t : List (String × EOSEntry))
deriving DecidableEq

/-- An inner Python dict (keyed by strings, in insertion order). -/
abbrev JobData := List (String × Val)

/-- The heap of inner dictionaries; an address is an index. -/
abbrev Store := List JobData

/-- The outer `data_dict`: keys `relax` / `static` mapped to inner-dict
addresses. -/
abbrev DataDict := List (String × ℕ)

/-- Dictionary read: the value at the first occurrence of the key. -/
def getVal {α : Type} : List (String × α) → String → Option α
  | [], _ => none
  | (k, w) :: rest, key => if k = key then some w else getVal rest key

/-- Dictionary write `d[key] = v`: replace in place if present, else append. -/
def setVal {α : Type} : List (String × α) → String → α → List (String × α)
  | [], key, v => [(key, v)]
  | (k, w) :: rest, key, v =>
      if k = key then (key, v) :: rest else (k, w) :: setVal rest key v

def storeGet (s : Store) (a : ℕ) : Option JobData := s.get? a

def storeSet (s : Store) (a : ℕ) (jd : JobData) : Store := s.set a jd

def asNums : Option Val → Option (List ℚ)
  | some (Val.nums xs) => some xs
  | _ => none

def asTable : Option Val → Option (List (String × EOSEntry))
  | some (Val.table t) => some t
  | _ => none

/-- The source's default model list (`EOS_models is None` branch). -/
def defaultEOSModels : List String :=
  ["murnaghan", "birch", "birch_murnaghan", "pourier_tarantola", "vinet"]

/-- One iteration of `for eos_name in EOS_models`: read
`data_dict[jobtype]["volumes"]` / `["energies"]` through the inner-dict
address, try the fit, and store the per-model entry into
`output[jobtype]["EOS"]` (the same inner dict). -/
def fitOneModel (fit : String → List ℚ → List ℚ → Option FitResult)
    (store : Store) (a : ℕ) (m : String) : Option Store :=
  (storeGet store a).bind fun jd =>
  (asNums (getVal jd ("volumes"))).bind fun vs =>
  (asNums (getVal jd ("energies"))).bind fun es =>
  (asTable (getVal jd ("EOS"))).bind fun t =>
  some (storeSet store a (setVal jd ("EOS") (Val.table (setVal t m (fit m vs es)))))

/-- One iteration of `for jobtype in ["relax", "static"]`: skip when
`len(list(data_dict.get(jobtype, []))) == 0` (key absent or inner dict empty);
otherwise set `output[jobtype]["EOS"] = {}` and run the model loop. -/
def processJobtype (fit : String → List ℚ → List ℚ → Option FitResult)
    (models : List String) (store : Store) (data_dict : DataDict)
    (jobtype : String) : Option Store :=
  match getVal data_dict jobtype with
  | none => some store
  | some a =>
    match storeGet store a with
    | none => none
    | some jd =>
      if jd = [] then some store
      else
        models.foldl (fun acc m => acc.bind fun st => fitOneModel fit st a m)
          (some (storeSet store a (setVal jd ("EOS") (Val.table []))))

/-- `postprocess_EOS(data_dict, EOS_models)`: resolve the default model list,
take the shallow copy `output = data_dict.copy()` (the same inner addresses),
process both jobtypes, and return the pair (final heap, returned outer dict). -/
def postprocess_EOS (fit : String → List ℚ → List ℚ → Option FitResult)
    (EOS_models : Option (List String)) (store : Store) (data_dict : DataDict) :
    Option (Store × DataDict) :=
  let models := EOS_models.getD defaultEOSModels
  let output := data_dict
  match processJobtype fit models store data_dict ("relax") with
  | none => none
  | some st1 =>
    match processJobtype fit models st1 data_dict ("static") with
    | none => none
    | some st2 => some (st2, output)

theorem getVal_setVal_self {α : Type} :
    ∀ (d : List (String × α)) (k : String) (v : α), getVal (setVal d k v) k = some v
  | [], k, v => by simp [setVal, getVal]
  | (k2, w) :: rest, k, v => by
    by_cases h : k2 = k
    · simp [setVal, getVal, h]
    · simp [setVal, getVal, h, getVal_setVal_self rest k v]

theorem getVal_setVal_ne {α : Type} :
    ∀ (d : List (String × α)) (k : String) (v : α) (k2 : String), k ≠ k2 →
      getVal (setVal d k v) k2 = getVal d k2
  | [], k, v, k2, h => by simp [setVal, getVal, h]
  | (k3, w) :: rest, k, v, k2, h => by
    by_cases h3 : k3 = k
    · subst h3
      simp [setVal, getVal, h]
    · simp [setVal, getVal, h3, getVal_setVal_ne rest k v k2 h]

theorem setVal_setVal_self {α : Type} :
    ∀ (d : List (String × α)) (k : String) (v v2 : α),
      setVal (setVal d k v) k v2 = setVal d k v2
  | [], k, v, v2 => by simp [setVal]
  | (k3, w) :: rest, k, v, v2 => by
    by_cases h3 : k3 = k
    · simp [setVal, h3]
    · simp [setVal, h3, setVal_setVal_self rest k v v2]

theorem setVal_of_getVal_self {α : Type} :
    ∀ (d : List (String × α)) (k : String) (v : α), getVal d k = some v →
      setVal d k v = d
  | [], k, v, h => by simp [getVal] at h
  | (k3, w) :: rest, k, v, h => by
    by_cases h3 : k3 = k
    · subst h3
      simp [getVal] at h
      simp [setVal, h]
    · simp [getVal, h3] at h
      simp [setVal, h3, setVal_of_getVal_self rest k v h]

theorem setVal_ne_nil {α : Type} (d : List (String × α)) (k : String) (v : α) :
    setVal d k v ≠ [] := by
  cases d with
  | nil => simp [setVal]
  | cons kv rest =>
    obtain ⟨k3, w⟩ := kv
    by_cases h3 : k3 = k <;> simp [setVal, h3]

theorem storeGet_storeSet_self :
    ∀ (s : Store) (a : ℕ) (jd0 jd : JobData), storeGet s a = some jd0 →
      storeGet (storeSet s a jd) a = some jd
  | [], a, jd0, jd, h => by simp [storeGet] at h
  | x :: rest, 0, jd0, jd, h => by simp [storeGet, storeSet]
  | x :: rest, a + 1, jd0, jd, h => by
    simpa [storeGet, storeSet] using
      storeGet_storeSet_self rest a jd0 jd (by simpa [storeGet] using h)

theorem storeGet_storeSet_ne :
    ∀ (s : Store) (a : ℕ) (jd : JobData) (b : ℕ), b ≠ a →
      storeGet (storeSet s a jd) b = storeGet s b
  | [], a, jd, b, h => by simp [storeGet, storeSet]
  | x :: rest, 0, jd, 0, h => absurd rfl h
  | x :: rest, 0, jd, b + 1, h => by simp [storeGet, storeSet]
  | x :: rest, a + 1, jd, 0, h => by simp [storeGet, storeSet]
  | x :: rest, a + 1, jd, b + 1, h => by
    simpa [storeGet, storeSet] using
      storeGet_storeSet_ne rest a jd b (fun hba => h (by rw [hba]))

theorem fitOneModel_inv (fit : String → List ℚ → List ℚ → Option FitResult)
    (store st2 : Store) (a : ℕ) (m : String)
    (h : fitOneModel fit store a m = some st2) :
    ∃ jd vs es t, storeGet store a = some jd ∧
      getVal jd ("volumes") = some (Val.nums vs) ∧
      getVal jd ("energies") = some (Val.nums es) ∧
      getVal jd ("EOS") = some (Val.table t) ∧
      st2 = storeSet store a (setVal jd ("EOS") (Val.table (setVal t m (fit m vs es)))) := by
  unfold fitOneModel at h
  cases h1 : storeGet store a with
  | none => rw [h1] at h; simp at h
  | some jd =>
    rw [h1] at h
    simp only [Option.some_bind] at h
    cases h2 : getVal jd ("volumes") with
    | none => rw [h2] at h; simp [asNums] at h
    | some v2 =>
      cases v2 with
      | table t2 => rw [h2] at h; simp [asNums] at h
      | nums vs =>
        rw [h2] at h
        simp only [asNums, Option.some_bind] at h
        cases h3 : getVal jd ("energies") with
        | none => rw [h3] at h; simp [asNums] at h
        | some v3 =>
          cases v3 with
          | table t3 => rw [h3] at h; simp [asNums] at h
          | nums es =>
            rw [h3] at h
            simp only [asNums, Option.some_bind] at h
            cases h4 : getVal jd ("EOS") with
            | none => rw [h4] at h; simp [asTable] at h
            | some v4 =>
              cases v4 with
              | nums xs4 => rw [h4] at h; simp [asTable] at h
              | table t =>
                rw [h4] at h
                simp only [asTable, Option.some_bind, Option.some_inj] at h
                exact ⟨jd, vs, es, t, rfl, h2, h3, h4, h.symm⟩

theorem fitOneModel_eq (fit : String → List ℚ → List ℚ → Option FitResult)
    (store : Store) (a : ℕ) (m : String) (jd : JobData) (vs es : List ℚ)
    (t : List (String × EOSEntry))
    (h1 : storeGet store a = some jd)
    (h2 : getVal jd ("volumes") = some (Val.nums vs))
    (h3 : getVal jd ("energies") = some (Val.nums es))
    (h4 : getVal jd ("EOS") = some (Val.table t)) :
    fitOneModel fit store a m =
      some (storeSet store a (setVal jd ("EOS") (Val.table (setVal t m (fit m vs es))))) := by
  unfold fitOneModel
  rw [h1]
  simp only [Option.some_bind]
  rw [h2]
  simp only [asNums, Option.some_bind]
  rw [h3]
  simp only [asNums, Option.some_bind]
  rw [h4]
  simp only [asTable, Option.some_bind]

theorem foldl_bind_none (fit : String → List ℚ → List ℚ → Option FitResult) (a : ℕ) :
    ∀ models : List String,
      models.foldl (fun acc m => acc.bind fun st => fitOneModel fit st a m) none = none
  | [] => rfl
  | m :: rest => by
    simp only [List.foldl_cons, Option.none_bind]
    exact foldl_bind_none fit a rest

theorem foldl_fitOneModel_spec (fit : String → List ℚ → List ℚ → Option FitResult) (a : ℕ)
    (vs es : List ℚ) :
    ∀ (models : List String) (store : Store) (jd : JobData)
      (t0 : List (String × EOSEntry)),
      storeGet store a = some jd →
      getVal jd ("volumes") = some (Val.nums vs) →
      getVal jd ("energies") = some (Val.nums es) →
      getVal jd ("EOS") = some (Val.table t0) →
      ∃ st2,
        models.foldl (fun acc m => acc.bind fun st => fitOneModel fit st a m) (some store) =
            some st2 ∧
          storeGet st2 a = some (setVal jd ("EOS")
            (Val.table (models.foldl (fun t m => setVal t m (fit m vs es)) t0))) ∧
          (∀ b, b ≠ a → storeGet st2 b = storeGet store b)
  | [], store, jd, t0, h1, h2, h3, h4 => by
    refine ⟨store, rfl, ?_, fun b _ => rfl⟩
    rw [h1]
    show some jd = some (setVal jd ("EOS") (Val.table t0))
    rw [setVal_of_getVal_self jd ("EOS") (Val.table t0) h4]
  | m :: rest, store, jd, t0, h1, h2, h3, h4 => by
    have hstep := fitOneModel_eq fit store a m jd vs es t0 h1 h2 h3 h4
    have hjd2 : storeGet (storeSet store a
        (setVal jd ("EOS") (Val.table (setVal t0 m (fit m vs es))))) a =
        some (setVal jd ("EOS") (Val.table (setVal t0 m (fit m vs es)))) :=
      storeGet_storeSet_self store a jd _ h1
    obtain ⟨st2, hfold, hget, hpres⟩ :=
      foldl_fitOneModel_spec fit a vs es rest
        (storeSet store a (setVal jd ("EOS") (Val.table (setVal t0 m (fit m vs es)))))
        (setVal jd ("EOS") (Val.table (setVal t0 m (fit m vs es))))
        (setVal t0 m (fit m vs es))
        hjd2
        (by rw [getVal_setVal_ne jd ("EOS") _ ("volumes") (by decide)]; exact h2)
        (by rw [getVal_setVal_ne jd ("EOS") _ ("energies") (by decide)]; exact h3)
        (getVal_setVal_self jd ("EOS") _)
    refine ⟨st2, ?_, ?_, ?_⟩
    · simpa only [List.foldl_cons, Option.some_bind, hstep] using hfold
    · rw [hget, setVal_setVal_self]
      simp only [List.foldl_cons]
    · intro b hb
      rw [hpres b hb, storeGet_storeSet_ne store a _ b hb]

theorem foldl_fitOneModel_pres (fit : String → List ℚ → List ℚ → Option FitResult) (a : ℕ) :
    ∀ (models : List String) (store st2 : Store),
      models.foldl (fun acc m => acc.bind fun st => fitOneModel fit st a m) (some store) =
          some st2 →
      ∀ b, b ≠ a → storeGet st2 b = storeGet store b
  | [], store, st2, h, b, hb => by
    simp only [List.foldl_nil, Option.some_inj] at h
    rw [h]
  | m :: rest, store, st2, h, b, hb => by
    simp only [List.foldl_cons, Option.some_bind] at h
    cases hstep : fitOneModel fit store a m with
    | none =>
      rw [hstep] at h
      rw [foldl_bind_none fit a rest] at h
      exact absurd h (by simp)
    | some st1 =>
      rw [hstep] at h
      obtain ⟨jd, vs, es, t, h1, h2, h3, h4, hform⟩ := fitOneModel_inv fit store st1 a m hstep
      rw [foldl_fitOneModel_pres fit a rest st1 st2 h b hb, hform,
        storeGet_storeSet_ne store a _ b hb]

theorem foldl_fitOneModel_keeps_EOS (fit : String → List ℚ → List ℚ → Option FitResult)
    (a : ℕ) :
    ∀ (models : List String) (store st2 : Store),
      models.foldl (fun acc m => acc.bind fun st => fitOneModel fit st a m) (some store) =
          some st2 →
      (∃ jd, storeGet store a = some jd ∧ (getVal jd ("EOS")).isSome ∧ jd ≠ []) →
      ∃ jd2, storeGet st2 a = some jd2 ∧ (getVal jd2 ("EOS")).isSome ∧ jd2 ≠ []
  | [], store, st2, h, hex => by
    simp only [List.foldl_nil, Option.some_inj] at h
    rw [← h]
    exact hex
  | m :: rest, store, st2, h, hex => by
    simp only [List.foldl_cons, Option.some_bind] at h
    cases hstep : fitOneModel fit store a m with
    | none =>
      rw [hstep] at h
      rw [foldl_bind_none fit a rest] at h
      exact absurd h (by simp)
    | some st1 =>
      rw [hstep] at h
      obtain ⟨jd, vs, es, t, h1, h2, h3, h4, hform⟩ := fitOneModel_inv fit store st1 a m hstep
      refine foldl_fitOneModel_keeps_EOS fit a rest st1 st2 h ?_
      refine ⟨setVal jd ("EOS") (Val.table (setVal t m (fit m vs es))), ?_, ?_, ?_⟩
      · rw [hform]
        exact storeGet_storeSet_self store a jd _ h1
      · rw [getVal_setVal_self]
        rfl
      · exact setVal_ne_nil jd ("EOS") _

theorem getVal_foldl_setVal (fit : String → List ℚ → List ℚ → Option FitResult)
    (vs es : List ℚ) :
    ∀ (models : List String) (t : List (String × EOSEntry)) (m : String),
      getVal (models.foldl (fun t2 m2 => setVal t2 m2 (fit m2 vs es)) t) m =
        if m ∈ models then some (fit m vs es) else getVal t m
  | [], t, m => by simp
  | m2 :: rest, t, m => by
    simp only [List.foldl_cons]
    rw [getVal_foldl_setVal fit vs es rest (setVal t m2 (fit m2 vs es)) m]
    by_cases hmem : m ∈ rest
    · simp [hmem, List.mem_cons]
    · by_cases heq : m2 = m
      · subst heq
        simp [hmem, List.mem_cons, getVal_setVal_self]
      · have hnotmem : m ∉ m2 :: rest := by
          simp only [List.mem_cons]
          push_neg
          exact ⟨fun h => heq h.symm, hmem⟩
        rw [if_neg hmem, if_neg hnotmem]
        exact getVal_setVal_ne t m2 _ m heq

theorem processJobtype_spec (fit : String → List ℚ → List ℚ → Option FitResult)
    (models : List String) (store : Store) (data_dict : DataDict) (jobtype : String)
    (a : ℕ) (jd : JobData) (vs es : List ℚ)
    (ha : getVal data_dict jobtype = some a)
    (hjd : storeGet store a = some jd) (hne : jd ≠ [])
    (hv : getVal jd ("volumes") = some (Val.nums vs))
    (he : getVal jd ("energies") = some (Val.nums es)) :
    ∃ st2, processJobtype fit models store data_dict jobtype = some st2 ∧
      storeGet st2 a = some (setVal jd ("EOS")
        (Val.table (models.foldl (fun t m => setVal t m (fit m vs es)) []))) ∧
      (∀ b, b ≠ a → storeGet st2 b = storeGet store b) := by
  obtain ⟨st2, hfold, hget, hpres⟩ :=
    foldl_fitOneModel_spec fit a vs es models
      (storeSet store a (setVal jd ("EOS") (Val.table [])))
      (setVal jd ("EOS") (Val.table [])) []
      (storeGet_storeSet_self store a jd _ hjd)
      (by rw [getVal_setVal_ne jd ("EOS") _ ("volumes") (by decide)]; exact hv)
      (by rw [getVal_setVal_ne jd ("EOS") _ ("energies") (by decide)]; exact he)
      (getVal_setVal_self jd ("EOS") _)
  refine ⟨st2, ?_, ?_, ?_⟩
  · simp only [processJobtype, ha, hjd]
    rw [if_neg hne]
    exact hfold
  · rw [hget, setVal_setVal_self]
  · intro b hb
    rw [hpres b hb, storeGet_storeSet_ne store a _ b hb]

theorem processJobtype_pres (fit : String → List ℚ → List ℚ → Option FitResult)
    (models : List String) (store : Store) (data_dict : DataDict) (jobtype : String)
    (st2 : Store) (h : processJobtype fit models store data_dict jobtype = some st2)
    (c : ℕ) (hc : ∀ a, getVal data_dict jobtype = some a → c ≠ a) :
    storeGet st2 c = storeGet store c := by
  unfold processJobtype at h
  cases ha : getVal data_dict jobtype with
  | none =>
    simp only [ha, Option.some_inj] at h
    rw [h]
  | some a =>
    simp only [ha] at h
    cases hjd : storeGet store a with
    | none => simp only [hjd] at h; exact absurd h (by simp)
    | some jd =>
      simp only [hjd] at h
      by_cases hne : jd = []
      · rw [if_pos hne] at h
        simp only [Option.some_inj] at h
        rw [h]
      · rw [if_neg hne] at h
        have hca := hc a ha
        rw [foldl_fitOneModel_pres fit a models _ st2 h c hca,
          storeGet_storeSet_ne store a _ c hca]

theorem processJobtype_keeps_EOS (fit : String → List ℚ → List ℚ → Option FitResult)
    (models : List String) (store : Store) (data_dict : DataDict) (jobtype : String)
    (st2 : Store) (a : ℕ) (jd : JobData)
    (h : processJobtype fit models store data_dict jobtype = some st2)
    (ha : getVal data_dict jobtype = some a)
    (hjd : storeGet store a = some jd) (hne : jd ≠ []) :
    ∃ jd2, storeGet st2 a = some jd2 ∧ (getVal jd2 ("EOS")).isSome ∧ jd2 ≠ [] := by
  unfold processJobtype at h
  simp only [ha, hjd] at h
  rw [if_neg hne] at h
  refine foldl_fitOneModel_keeps_EOS fit a models _ st2 h ?_
  refine ⟨setVal jd ("EOS") (Val.table []), storeGet_storeSet_self store a jd _ hjd, ?_,
    setVal_ne_nil jd ("EOS") _⟩
  rw [getVal_setVal_self]
  rfl

theorem postprocess_EOS_inv (fit : String → List ℚ → List ℚ → Option FitResult)
    (EOS_models : Option (List String)) (store : Store) (data_dict : DataDict)
    (st2 : Store) (out : DataDict)
    (h : postprocess_EOS fit EOS_models store data_dict = some (st2, out)) :
    out = data_dict ∧ ∃ st1,
      processJobtype fit (EOS_models.getD defaultEOSModels) store data_dict ("relax") =
          some st1 ∧
        processJobtype fit (EOS_models.getD defaultEOSModels) st1 data_dict ("static") =
          some st2 := by
  unfold postprocess_EOS at h
  cases h1 : processJobtype fit (EOS_models.getD defaultEOSModels) store data_dict ("relax") with
  | none => simp only [h1] at h; exact absurd h (by simp)
  | some st1 =>
    simp only [h1] at h
    cases h2 : processJobtype fit (EOS_models.getD defaultEOSModels) st1 data_dict
        ("static") with
    | none => simp only [h2] at h; exact absurd h (by simp)
    | some stS =>
      simp only [h2, Option.some_inj, Prod.mk.injEq] at h
      exact ⟨h.2.symm, st1, rfl, by rw [← h.1]; exact h2⟩

/-- C5: for every call of `postprocess_EOS`, every requested model's recorded
entry in the output `EOS` table is exactly the outcome of that model's own fit
on the jobtype's `(volumes, energies)` data — a failed fit (including a
malformed model name, which pymatgen rejects with the same `EOSError`) is
recorded as the empty entry for that model only and cannot change any other
model's entry, so the remaining models of the same call are still attempted
and succeed whenever their own fits succeed. -/
theorem postprocess_EOS_per_model_independent
    (fit : String → List ℚ → List ℚ → Option FitResult) (EOS_models : Option (List String))
    (store : Store) (data_dict : DataDict) (st2 : Store) (out : DataDict)
    (a : ℕ) (jd : JobData) (vs es : List ℚ)
    (hrun : postprocess_EOS fit EOS_models store data_dict = some (st2, out))
    (ha : getVal data_dict ("relax") = some a)
    (hjd : storeGet store a = some jd) (hne : jd ≠ [])
    (hv : getVal jd ("volumes") = some (Val.nums vs))
    (he : getVal jd ("energies") = some (Val.nums es)) :
    ∃ jd2 t, storeGet st2 a = some jd2 ∧ getVal jd2 ("EOS") = some (Val.table t) ∧
      ∀ m ∈ EOS_models.getD defaultEOSModels, getVal t m = some (fit m vs es) := by
  obtain ⟨hout, st1, hrel, hstat⟩ :=
    postprocess_EOS_inv fit EOS_models store data_dict st2 out hrun
  set models := EOS_models.getD defaultEOSModels with hmodels
  set T := models.foldl (fun t m => setVal t m (fit m vs es)) [] with hT
  obtain ⟨st1b, hrelb, hget1, hpres1⟩ :=
    processJobtype_spec fit models store data_dict ("relax") a jd vs es ha hjd hne hv he
  rw [hrel] at hrelb
  have hst1 : st1b = st1 := (Option.some_inj.1 hrelb).symm
  rw [hst1] at hget1 hpres1
  have hfinish : storeGet st2 a = some (setVal jd ("EOS") (Val.table T)) →
      ∃ jd2 t, storeGet st2 a = some jd2 ∧ getVal jd2 ("EOS") = some (Val.table t) ∧
        ∀ m ∈ models, getVal t m = some (fit m vs es) := by
    intro hfin
    refine ⟨setVal jd ("EOS") (Val.table T), T, hfin, getVal_setVal_self jd ("EOS") _, ?_⟩
    intro m hm
    rw [hT, getVal_foldl_setVal fit vs es models [] m, if_pos hm]
  cases hb : getVal data_dict ("static") with
  | none =>
    have hs : st2 = st1 := by
      unfold processJobtype at hstat
      simp only [hb, Option.some_inj] at hstat
      exact hstat.symm
    exact hfinish (by rw [hs]; exact hget1)
  | some b =>
    by_cases hba : b = a
    · subst hba
      have hjd1 : storeGet st1 b = some (setVal jd ("EOS") (Val.table T)) := hget1
      obtain ⟨stSb, hstatb, hgetS, hpresS⟩ :=
        processJobtype_spec fit models st1 data_dict ("static") b
          (setVal jd ("EOS") (Val.table T)) vs es hb hjd1
          (setVal_ne_nil jd ("EOS") _)
          (by rw [getVal_setVal_ne jd ("EOS") _ ("volumes") (by decide)]; exact hv)
          (by rw [getVal_setVal_ne jd ("EOS") _ ("energies") (by decide)]; exact he)
      rw [hstat] at hstatb
      have hstS : stSb = st2 := (Option.some_inj.1 hstatb).symm
      rw [hstS] at hgetS
      rw [setVal_setVal_self] at hgetS
      exact hfinish (by rw [hgetS, hT])
    · have hpres : storeGet st2 a = storeGet st1 a :=
        processJobtype_pres fit models st1 data_dict ("static") st2 hstat a
          (by intro a2 ha2; rw [hb, Option.some_inj] at ha2; rw [← ha2]
              exact fun hh => hba hh.symm)
      exact hfinish (by rw [hpres]; exact hget1)

/-- C10: `postprocess_EOS` is not side-effect-free on its input. `output =
data_dict.copy()` is a shallow copy, so the outer dict returned shares the
inner per-jobtype dictionaries with the caller's `data_dict`; when a jobtype
entry (here `relax`) is present and non-empty, the `EOS` results are inserted
into that shared inner dict, so after the call the caller's `data_dict` —
dereferenced through the unchanged addresses — has acquired the `EOS` key it
did not have before. -/
theorem postprocess_EOS_shallow_copy_mutates_caller
    (fit : String → List ℚ → List ℚ → Option FitResult) (EOS_models : Option (List String))
    (store : Store) (data_dict : DataDict) (st2 : Store) (out : DataDict)
    (a : ℕ) (jd : JobData)
    (hrun : postprocess_EOS fit EOS_models store data_dict = some (st2, out))
    (ha : getVal data_dict ("relax") = some a)
    (hjd : storeGet store a = some jd) (hne : jd ≠ [])
    (hEOS : getVal jd ("EOS") = none) :
    out = data_dict ∧
      ∃ jd2, storeGet st2 a = some jd2 ∧ (getVal jd2 ("EOS")).isSome := by
  obtain ⟨hout, st1, hrel, hstat⟩ :=
    postprocess_EOS_inv fit EOS_models store data_dict st2 out hrun
  set models := EOS_models.getD defaultEOSModels with hmodels
  obtain ⟨jd1, hget1, hEOS1, hne1⟩ :=
    processJobtype_keeps_EOS fit models store data_dict ("relax") st1 a jd hrel ha hjd hne
  refine ⟨hout, ?_⟩
  cases hb : getVal data_dict ("static") with
  | none =>
    have hs : st2 = st1 := by
      unfold processJobtype at hstat
      simp only [hb, Option.some_inj] at hstat
      exact hstat.symm
    exact ⟨jd1, by rw [hs]; exact hget1, hEOS1⟩
  | some b =>
    by_cases hba : b = a
    · subst hba
      obtain ⟨jd2, hget2, hEOS2, hne2⟩ :=
        processJobtype_keeps_EOS fit models st1 data_dict ("static") st2 b jd1
          hstat hb hget1 hne1
      exact ⟨jd2, hget2, hEOS2⟩
    · have hpres : storeGet st2 a = storeGet st1 a :=
        processJobtype_pres fit models st1 data_dict ("static") st2 hstat a
          (by intro a2 ha2; rw [hb, Option.some_inj] at ha2; rw [← ha2]
              exact fun hh => hba hh.symm)
      exact ⟨jd1, by rw [hpres]; exact hget1, hEOS1⟩

/-- C6 (amended): `postprocess_EOS` contains no point-count contract check. A
fit oracle that fails on every model — pymatgen's behaviour when the data are
underdetermined, signalled as `EOSError`, the very exception class the source
catches per model — makes the call return *normally*, with the `EOS` table
holding a silent empty entry for every requested model. No `ContractViolation`
(nor any other error) is raised for fewer than 3 points. -/
theorem postprocess_EOS_lt_three_points_silent
    (fit : String → List ℚ → List ℚ → Option FitResult) (EOS_models : Option (List String))
    (store : Store) (data_dict : DataDict) (a : ℕ) (jd : JobData) (vs es : List ℚ)
    (ha : getVal data_dict ("relax") = some a)
    (hstatic : getVal data_dict ("static") = none)
    (hjd : storeGet store a = some jd) (hne : jd ≠ [])
    (hv : getVal jd ("volumes") = some (Val.nums vs))
    (he : getVal jd ("energies") = some (Val.nums es))
    (hlen : vs.length < 3)
    (hfail : ∀ m, fit m vs es = none) :
    ∃ st2, postprocess_EOS fit EOS_models store data_dict = some (st2, data_dict) ∧
      ∃ jd2 t, storeGet st2 a = some jd2 ∧ getVal jd2 ("EOS") = some (Val.table t) ∧
        ∀ m ∈ EOS_models.getD defaultEOSModels, getVal t m = some none := by
  set models := EOS_models.getD defaultEOSModels with hmodels
  set T := models.foldl (fun t m => setVal t m (fit m vs es)) [] with hT
  obtain ⟨st1, hrel, hget1, hpres1⟩ :=
    processJobtype_spec fit models store data_dict ("relax") a jd vs es ha hjd hne hv he
  have hstat : processJobtype fit models st1 data_dict ("static") = some st1 := by
    unfold processJobtype
    simp only [hstatic]
  refine ⟨st1, ?_, setVal jd ("EOS") (Val.table T), T, hget1,
    getVal_setVal_self jd ("EOS") _, ?_⟩
  · unfold postprocess_EOS
    rw [← hmodels]
    simp only [hrel, hstat]
  · intro m hm
    rw [hT, getVal_foldl_setVal fit vs es models [] m, if_pos hm, hfail m]

/-- Fit oracle embedding pymatgen on underdetermined data: with fewer than 3
(volume, energy) points every model's nonlinear fit fails with `EOSError`
(which the source catches and records as the empty dict); with 3 or more
points it succeeds. -/
def underdeterminedFit : String → List ℚ → List ℚ → Option FitResult :=
  fun _ vs _ => if vs.length < 3 then none else some ⟨0, 0, 0, 0, 0⟩

/-- C6 (counterexample): called on a `relax` entry holding only two (V, E)
points, `postprocess_EOS` raises nothing at all: it returns normally and the
per-model entries are all the silent empty result `{}`. There is no
point-count check and no `ContractViolation` path anywhere in the source. -/
theorem postprocess_EOS_two_points_returns_silent_empty :
    postprocess_EOS underdeterminedFit none
        [[("volumes", Val.nums [1, 2]), ("energies", Val.nums [5, 4])]]
        [("relax", 0)] =
      some ([[("volumes", Val.nums [1, 2]), ("energies", Val.nums [5, 4]),
          ("EOS", Val.table [("murnaghan", none), ("birch", none),
            ("birch_murnaghan", none), ("pourier_tarantola", none),
            ("vinet", none)])]],
        [("relax", 0)]) := rfl

/-- Concrete fit oracle for the C5 witness: the malformed model name `bad`
fails (pymatgen raises `EOSError` for an unsupported name), every other model
succeeds. -/
def fitMixedW : String → List ℚ → List ℚ → Option FitResult :=
  fun m _ _ => if m = "bad" then none else some ⟨1, 2, 3, 4, 5⟩

def jdW : JobData := [("volumes", Val.nums [1, 2, 3]), ("energies", Val.nums [4, 5, 6])]

def ddW : DataDict := [("relax", 0)]

def st2W : Store :=
  [[("volumes", Val.nums [1, 2, 3]), ("energies", Val.nums [4, 5, 6]),
    ("EOS", Val.table [("murnaghan", some ⟨1, 2, 3, 4, 5⟩), ("bad", none)])]]

/-- Witness for C5 at a concrete run: requested models `[murnaghan, bad]`,
where `bad` fails; `murnaghan` still succeeds and each entry equals its own
fit outcome. -/
theorem postprocess_EOS_per_model_independent_witness :
    ∃ jd2 t, storeGet st2W 0 = some jd2 ∧ getVal jd2 ("EOS") = some (Val.table t) ∧
      ∀ m ∈ (some ["murnaghan", "bad"] : Option (List String)).getD defaultEOSModels,
        getVal t m = some (fitMixedW m [1, 2, 3] [4, 5, 6]) :=
  postprocess_EOS_per_model_independent fitMixedW (some ["murnaghan", "bad"])
    [jdW] ddW st2W ddW 0 jdW [1, 2, 3] [4, 5, 6] (by rfl) (by rfl) (by rfl)
    (by simp [jdW]) (by rfl) (by rfl)

/-- Witness for C10 at the same concrete run: the returned outer dict is the
caller's `data_dict` and the shared inner dict has acquired the `EOS` key. -/
theorem postprocess_EOS_shallow_copy_mutates_caller_witness :
    ddW = ddW ∧ ∃ jd2, storeGet st2W 0 = some jd2 ∧ (getVal jd2 ("EOS")).isSome :=
  postprocess_EOS_shallow_copy_mutates_caller fitMixedW (some ["murnaghan", "bad"])
    [jdW] ddW st2W ddW 0 jdW (by rfl) (by rfl) (by rfl) (by simp [jdW]) (by rfl)

/-- Witness for the amended C6 at the concrete two-point input. -/
theorem postprocess_EOS_lt_three_points_silent_witness :
    ∃ st2, postprocess_EOS underdeterminedFit none
        [[("volumes", Val.nums [1, 2]), ("energies", Val.nums [5, 4])]]
        [("relax", 0)] = some (st2, [("relax", 0)]) ∧
      ∃ jd2 t, storeGet st2 0 = some jd2 ∧ getVal jd2 ("EOS") = some (Val.table t) ∧
        ∀ m ∈ (none : Option (List String)).getD defaultEOSModels,
          getVal t m = some none :=
  postprocess_EOS_lt_three_points_silent underdeterminedFit none
    [[("volumes", Val.nums [1, 2]), ("energies", Val.nums [5, 4])]]
    [("relax", 0)] 0
    [("volumes", Val.nums [1, 2]), ("energies", Val.nums [5, 4])]
    [1, 2] [5, 4] (by rfl) (by rfl) (by rfl) (by simp) (by rfl) (by rfl)
    (by decide) (fun m => rfl)

/-! ## Equilibrium Volume Search (MPMorph)
The component itself — `EquilibriumVolumeMaker` in
`atomate2/common/flows/mpmorph.py` — is code of this repository that is *not*
under src/; only its tests (`tests/vasp/flows/test_mpmorph.py`,
`tests/forcefields/flows/test_mpmorph.py`) are. The definitions in this
section are therefore modelled from the spec (section 4.3), with the concrete
data of the repository's tests used for the concrete scenarios. -/

/-- Modelled from the spec: the 3-point `ScaleBracket` of volume scale factors of
one sampling round of `EquilibriumVolumeMaker` (absent from src/); default
`{0.8, 1.0, 1.2}` relative to the reference structure. -/
structure ScaleBracket where
  lo : ℚ
  mid : ℚ
  hi : ℚ

def bracketMin (b : ScaleBracket) : ℚ := min b.lo (min b.mid b.hi)

def bracketMax (b : ScaleBracket) : ℚ := max b.lo (max b.mid b.hi)

/-- Modelled from the spec: the outcome of the Equilibrium Volume Search
(`EquilibriumVolumeMaker.make`, absent from src/): CONVERGED with the fitted
V0 (the structure is rescaled to that volume), or a terminal failure —
EOS-non-convergence (every model's fit failed) or bracket non-convergence (the
round limit was exceeded). Every outcome carries the accumulated point set for
diagnosis (spec section 7). -/
inductive SearchResult where
  | converged (v0 : ℚ) (points : List (ℚ × ℚ))
  | eosNonConvergence (points : List (ℚ × ℚ))
  | bracketNonConvergence (points : List (ℚ × ℚ))

def SearchResult.points : SearchResult → List (ℚ × ℚ)
  | SearchResult.converged _ pts => pts
  | SearchResult.eosNonConvergence pts => pts
  | SearchResult.bracketNonConvergence pts => pts

/-- Modelled from the spec: one SAMPLING round — the Trial Runner (an external
collaborator, here the oracle `trial` from a scale factor to the trial's final
`(volume, energy)`) is invoked once per scale factor of the current bracket. -/
def sampleScaleBracket (trial : ℚ → ℚ × ℚ) (b : ScaleBracket) : List (ℚ × ℚ) :=
  [trial b.lo, trial b.mid, trial b.hi]

/-- Minimum volume among the current round's three sampled points. -/
def roundVmin (trial : ℚ → ℚ × ℚ) (b : ScaleBracket) : ℚ :=
  min (trial b.lo).1 (min (trial b.mid).1 (trial b.hi).1)

/-- Maximum volume among the current round's three sampled points. -/
def roundVmax (trial : ℚ → ℚ × ℚ) (b : ScaleBracket) : ℚ :=
  max (trial b.lo).1 (max (trial b.mid).1 (trial b.hi).1)

/-- Modelled from the spec: RE-BRACKETING (spec 4.3 step 5; the source's exact
re-centering heuristic is noted as ambiguous in the spec's design notes, so
this takes the documented choice): the new 3-point bracket is centered on the
fitted V0 expressed as a scale factor `s0` relative to the reference volume,
with the previous bracket's span placed on each side — a monotone, symmetric
expansion that doubles the span and puts `s0` strictly inside whenever the
span is positive. -/
def rebracket (b : ScaleBracket) (s0 : ℚ) : ScaleBracket :=
  ⟨s0 - (bracketMax b - bracketMin b), s0, s0 + (bracketMax b - bracketMin b)⟩

/-- Modelled from the spec: the bounded search loop of
`EquilibriumVolumeMaker.make` (absent from src/), with the EOS Fitter as the
oracle `fitV0` from the accumulated points to the fitted V0 of the first
successful model (`none` = all models failed). Returns the result together
with the list of point sets handed to the EOS Fitter, one per round. Spec 4.3:
sample the bracket, accumulate into the running point set, fit, check whether
V0 lies strictly inside the current round's sampled volume range; on success
return the rescaled structure, otherwise re-bracket; a round counter bounds
the loop (`fuel` = rounds remaining before the configured maximum, default 5,
is exceeded), and exhausting it is the ScaleBracketNonConvergence failure. -/
def searchAux (trial : ℚ → ℚ × ℚ) (fitV0 : List (ℚ × ℚ) → Option ℚ) (vref : ℚ) :
    ℕ → ScaleBracket → List (ℚ × ℚ) → SearchResult × List (List (ℚ × ℚ))
  | 0, _, acc => (SearchResult.bracketNonConvergence acc, [])
  | fuel + 1, b, acc =>
    let acc2 := acc ++ sampleScaleBracket trial b
    match fitV0 acc2 with
    | none => (SearchResult.eosNonConvergence acc2, [acc2])
    | some v0 =>
      if roundVmin trial b < v0 ∧ v0 < roundVmax trial b then
        (SearchResult.converged v0 acc2, [acc2])
      else
        let next := searchAux trial fitV0 vref fuel (rebracket b (v0 / vref)) acc2
        (next.1, acc2 :: next.2)

/-- The search outcome after at most `maxRounds` bracketing rounds. -/
def search (trial : ℚ → ℚ × ℚ) (fitV0 : List (ℚ × ℚ) → Option ℚ) (vref : ℚ)
    (maxRounds : ℕ) (b : ScaleBracket) (acc : List (ℚ × ℚ)) : SearchResult :=
  (searchAux trial fitV0 vref maxRounds b acc).1

/-- The successive point sets fed to the EOS Fitter, one per executed round. -/
def fitInputs (trial : ℚ → ℚ × ℚ) (fitV0 : List (ℚ × ℚ) → Option ℚ) (vref : ℚ)
    (maxRounds : ℕ) (b : ScaleBracket) (acc : List (ℚ × ℚ)) : List (List (ℚ × ℚ)) :=
  (searchAux trial fitV0 vref maxRounds b acc).2

theorem search_succ_converged (trial : ℚ → ℚ × ℚ) (fitV0 : List (ℚ × ℚ) → Option ℚ)
    (vref : ℚ) (fuel : ℕ) (b : ScaleBracket) (acc : List (ℚ × ℚ)) (v0 : ℚ)
    (hfit : fitV0 (acc ++ sampleScaleBracket trial b) = some v0)
    (hin : roundVmin trial b < v0 ∧ v0 < roundVmax trial b) :
    search trial fitV0 vref (fuel + 1) b acc =
        SearchResult.converged v0 (acc ++ sampleScaleBracket trial b) ∧
      fitInputs trial fitV0 vref (fuel + 1) b acc = [acc ++ sampleScaleBracket trial b] := by
  unfold search fitInputs
  simp only [searchAux, hfit]
  rw [if_pos hin]
  exact ⟨rfl, rfl⟩

theorem search_succ_rebracket (trial : ℚ → ℚ × ℚ) (fitV0 : List (ℚ × ℚ) → Option ℚ)
    (vref : ℚ) (fuel : ℕ) (b : ScaleBracket) (acc : List (ℚ × ℚ)) (v0 : ℚ)
    (hfit : fitV0 (acc ++ sampleScaleBracket trial b) = some v0)
    (hnot : ¬(roundVmin trial b < v0 ∧ v0 < roundVmax trial b)) :
    search trial fitV0 vref (fuel + 1) b acc =
        search trial fitV0 vref fuel (rebracket b (v0 / vref))
          (acc ++ sampleScaleBracket trial b) ∧
      fitInputs trial fitV0 vref (fuel + 1) b acc =
        (acc ++ sampleScaleBracket trial b) ::
          fitInputs trial fitV0 vref fuel (rebracket b (v0 / vref))
            (acc ++ sampleScaleBracket trial b) := by
  unfold search fitInputs
  simp only [searchAux, hfit]
  rw [if_neg hnot]
  exact ⟨rfl, rfl⟩

theorem min3_lt (A B C v0 : ℚ) (h : min A (min B C) < v0) :
    A < v0 ∨ B < v0 ∨ C < v0 := by
  rcases min_choice A (min B C) with h1 | h1 <;> rw [h1] at h
  · exact Or.inl h
  · rcases min_choice B C with h2 | h2 <;> rw [h2] at h
    · exact Or.inr (Or.inl h)
    · exact Or.inr (Or.inr h)

theorem lt_max3 (A B C v0 : ℚ) (h : v0 < max A (max B C)) :
    v0 < A ∨ v0 < B ∨ v0 < C := by
  rcases max_choice A (max B C) with h1 | h1 <;> rw [h1] at h
  · exact Or.inl h
  · rcases max_choice B C with h2 | h2 <;> rw [h2] at h
    · exact Or.inr (Or.inl h)
    · exact Or.inr (Or.inr h)

theorem search_zero (trial : ℚ → ℚ × ℚ) (fitV0 : List (ℚ × ℚ) → Option ℚ) (vref : ℚ)
    (b : ScaleBracket) (acc : List (ℚ × ℚ)) :
    search trial fitV0 vref 0 b acc = SearchResult.bracketNonConvergence acc ∧
      fitInputs trial fitV0 vref 0 b acc = [] :=
  ⟨rfl, rfl⟩

theorem search_succ_eos_fail (trial : ℚ → ℚ × ℚ) (fitV0 : List (ℚ × ℚ) → Option ℚ)
    (vref : ℚ) (fuel : ℕ) (b : ScaleBracket) (acc : List (ℚ × ℚ))
    (hfit : fitV0 (acc ++ sampleScaleBracket trial b) = none) :
    search trial fitV0 vref (fuel + 1) b acc =
        SearchResult.eosNonConvergence (acc ++ sampleScaleBracket trial b) ∧
      fitInputs trial fitV0 vref (fuel + 1) b acc = [acc ++ sampleScaleBracket trial b] := by
  unfold search fitInputs
  simp [searchAux, hfit]

theorem search_converged_points_bound (trial : ℚ → ℚ × ℚ)
    (fitV0 : List (ℚ × ℚ) → Option ℚ) (vref : ℚ) :
    ∀ (fuel : ℕ) (b : ScaleBracket) (acc : List (ℚ × ℚ)) (v0 : ℚ) (pts : List (ℚ × ℚ)),
      search trial fitV0 vref fuel b acc = SearchResult.converged v0 pts →
        (∃ p ∈ pts, p.1 < v0) ∧ (∃ q ∈ pts, v0 < q.1)
  | 0, b, acc, v0, pts, h => by
    rw [(search_zero trial fitV0 vref b acc).1] at h
    exact absurd h (by simp)
  | fuel + 1, b, acc, v0, pts, h => by
    cases hfit : fitV0 (acc ++ sampleScaleBracket trial b) with
    | none =>
      rw [(search_succ_eos_fail trial fitV0 vref fuel b acc hfit).1] at h
      exact absurd h (by simp)
    | some w =>
      by_cases hin : roundVmin trial b < w ∧ w < roundVmax trial b
      · rw [(search_succ_converged trial fitV0 vref fuel b acc w hfit hin).1] at h
        have hw : w = v0 := by injection h
        have hpts : acc ++ sampleScaleBracket trial b = pts := by injection h
        subst hw
        subst hpts
        constructor
        · rcases min3_lt (trial b.lo).1 (trial b.mid).1 (trial b.hi).1 w hin.1 with
            hl | hl | hl
          · exact ⟨trial b.lo, by simp [sampleScaleBracket], hl⟩
          · exact ⟨trial b.mid, by simp [sampleScaleBracket], hl⟩
          · exact ⟨trial b.hi, by simp [sampleScaleBracket], hl⟩
        · rcases lt_max3 (trial b.lo).1 (trial b.mid).1 (trial b.hi).1 w hin.2 with
            hl | hl | hl
          · exact ⟨trial b.lo, by simp [sampleScaleBracket], hl⟩
          · exact ⟨trial b.mid, by simp [sampleScaleBracket], hl⟩
          · exact ⟨trial b.hi, by simp [sampleScaleBracket], hl⟩
      · rw [(search_succ_rebracket trial fitV0 vref fuel b acc w hfit hin).1] at h
        exact search_converged_points_bound trial fitV0 vref fuel _ _ v0 pts h

/-- C1: in every bracketing round of the Equilibrium Volume Search whose EOS
fit produced a V0, the search returns the structure rescaled to that V0
(CONVERGED, carrying the accumulated points) exactly when V0 lies strictly
between the minimum and maximum volumes of the current round's three sampled
points, and otherwise re-brackets and samples again; consequently a CONVERGED
result's equilibrium volume always lies strictly inside the range of the
sampled volumes it returns — the search never returns an equilibrium volume
extrapolated outside all sampled data. -/
theorem equilibrium_volume_search_no_extrapolation (trial : ℚ → ℚ × ℚ)
    (fitV0 : List (ℚ × ℚ) → Option ℚ) (vref : ℚ) :
    (∀ (fuel : ℕ) (b : ScaleBracket) (acc : List (ℚ × ℚ)) (v0 : ℚ),
      fitV0 (acc ++ sampleScaleBracket trial b) = some v0 →
        ((roundVmin trial b < v0 ∧ v0 < roundVmax trial b) →
          search trial fitV0 vref (fuel + 1) b acc =
            SearchResult.converged v0 (acc ++ sampleScaleBracket trial b)) ∧
        (¬(roundVmin trial b < v0 ∧ v0 < roundVmax trial b) →
          search trial fitV0 vref (fuel + 1) b acc =
            search trial fitV0 vref fuel (rebracket b (v0 / vref))
              (acc ++ sampleScaleBracket trial b))) ∧
    (∀ (fuel : ℕ) (b : ScaleBracket) (acc : List (ℚ × ℚ)) (v0 : ℚ)
        (pts : List (ℚ × ℚ)),
      search trial fitV0 vref fuel b acc = SearchResult.converged v0 pts →
        (∃ p ∈ pts, p.1 < v0) ∧ (∃ q ∈ pts, v0 < q.1)) := by
  constructor
  · intro fuel b acc v0 hfit
    constructor
    · intro hin
      exact (search_succ_converged trial fitV0 vref fuel b acc v0 hfit hin).1
    · intro hnot
      exact (search_succ_rebracket trial fitV0 vref fuel b acc v0 hfit hnot).1
  · exact search_converged_points_bound trial fitV0 vref

/-- Toy trial oracle for witnesses: the trial at scale factor `s` reports
volume `s` and energy 0. -/
def trialToy : ℚ → ℚ × ℚ := fun s => (s, 0)

/-- Toy fit oracle for witnesses: every fit call returns V0 = 2. -/
def fitToy : List (ℚ × ℚ) → Option ℚ := fun _ => some 2

/-- Witness for C1 at a concrete round: with the toy oracles, V0 = 2 lies
strictly between the round volumes 1 and 3, so the search converges in that
round. -/
theorem equilibrium_volume_search_no_extrapolation_witness :
    search trialToy fitToy 1 3 ⟨1, 2, 3⟩ [] =
      SearchResult.converged 2 ([] ++ sampleScaleBracket trialToy ⟨1, 2, 3⟩) :=
  ((equilibrium_volume_search_no_extrapolation trialToy fitToy 1).1 2 ⟨1, 2, 3⟩ [] 2
    rfl).1
    (by constructor <;> norm_num [roundVmin, roundVmax, trialToy, min_def, max_def])

theorem search_points_supset_acc (trial : ℚ → ℚ × ℚ)
    (fitV0 : List (ℚ × ℚ) → Option ℚ) (vref : ℚ) :
    ∀ (fuel : ℕ) (b : ScaleBracket) (acc : List (ℚ × ℚ)),
      ∀ p ∈ acc, p ∈ (search trial fitV0 vref fuel b acc).points
  | 0, b, acc, p, hp => by
    rw [(search_zero trial fitV0 vref b acc).1]
    exact hp
  | fuel + 1, b, acc, p, hp => by
    cases hfit : fitV0 (acc ++ sampleScaleBracket trial b) with
    | none =>
      rw [(search_succ_eos_fail trial fitV0 vref fuel b acc hfit).1]
      exact List.mem_append_left _ hp
    | some w =>
      by_cases hin : roundVmin trial b < w ∧ w < roundVmax trial b
      · rw [(search_succ_converged trial fitV0 vref fuel b acc w hfit hin).1]
        exact List.mem_append_left _ hp
      · rw [(search_succ_rebracket trial fitV0 vref fuel b acc w hfit hin).1]
        exact search_points_supset_acc trial fitV0 vref fuel _ _ p
          (List.mem_append_left _ hp)

theorem fitInputs_supset_acc (trial : ℚ → ℚ × ℚ)
    (fitV0 : List (ℚ × ℚ) → Option ℚ) (vref : ℚ) :
    ∀ (fuel : ℕ) (b : ScaleBracket) (acc : List (ℚ × ℚ)),
      ∀ t ∈ fitInputs trial fitV0 vref fuel b acc, ∀ p ∈ acc, p ∈ t
  | 0, b, acc, t, ht, p, hp => by
    rw [(search_zero trial fitV0 vref b acc).2] at ht
    exact absurd ht (by simp)
  | fuel + 1, b, acc, t, ht, p, hp => by
    cases hfit : fitV0 (acc ++ sampleScaleBracket trial b) with
    | none =>
      rw [(search_succ_eos_fail trial fitV0 vref fuel b acc hfit).2] at ht
      rw [List.mem_singleton.1 ht]
      exact List.mem_append_left _ hp
    | some w =>
      by_cases hin : roundVmin trial b < w ∧ w < roundVmax trial b
      · rw [(search_succ_converged trial fitV0 vref fuel b acc w hfit hin).2] at ht
        rw [List.mem_singleton.1 ht]
        exact List.mem_append_left _ hp
      · rw [(search_succ_rebracket trial fitV0 vref fuel b acc w hfit hin).2] at ht
        rcases List.mem_cons.1 ht with rfl | ht2
        · exact List.mem_append_left _ hp
        · exact fitInputs_supset_acc trial fitV0 vref fuel _ _ t ht2 p
            (List.mem_append_left _ hp)

theorem fitInputs_chain (trial : ℚ → ℚ × ℚ)
    (fitV0 : List (ℚ × ℚ) → Option ℚ) (vref : ℚ) :
    ∀ (fuel : ℕ) (b : ScaleBracket) (acc : List (ℚ × ℚ)),
      List.Pairwise (fun t1 t2 => ∀ p ∈ t1, p ∈ t2)
        (fitInputs trial fitV0 vref fuel b acc)
  | 0, b, acc => by
    rw [(search_zero trial fitV0 vref b acc).2]
    exact List.Pairwise.nil
  | fuel + 1, b, acc => by
    cases hfit : fitV0 (acc ++ sampleScaleBracket trial b) with
    | none =>
      rw [(search_succ_eos_fail trial fitV0 vref fuel b acc hfit).2]
      simp
    | some w =>
      by_cases hin : roundVmin trial b < w ∧ w < roundVmax trial b
      · rw [(search_succ_converged trial fitV0 vref fuel b acc w hfit hin).2]
        simp
      · rw [(search_succ_rebracket trial fitV0 vref fuel b acc w hfit hin).2]
        refine List.Pairwise.cons ?_ (fitInputs_chain trial fitV0 vref fuel _ _)
        intro t ht p hp
        exact fitInputs_supset_acc trial fitV0 vref fuel _ _ t ht p hp

theorem fitInputs_subset_result (trial : ℚ → ℚ × ℚ)
    (fitV0 : List (ℚ × ℚ) → Option ℚ) (vref : ℚ) :
    ∀ (fuel : ℕ) (b : ScaleBracket) (acc : List (ℚ × ℚ)),
      ∀ t ∈ fitInputs trial fitV0 vref fuel b acc,
        ∀ p ∈ t, p ∈ (search trial fitV0 vref fuel b acc).points
  | 0, b, acc, t, ht, p, hp => by
    rw [(search_zero trial fitV0 vref b acc).2] at ht
    exact absurd ht (by simp)
  | fuel + 1, b, acc, t, ht, p, hp => by
    cases hfit : fitV0 (acc ++ sampleScaleBracket trial b) with
    | none =>
      rw [(search_succ_eos_fail trial fitV0 vref fuel b acc hfit).2] at ht
      rw [(search_succ_eos_fail trial fitV0 vref fuel b acc hfit).1]
      rw [List.mem_singleton.1 ht] at hp
      exact hp
    | some w =>
      by_cases hin : roundVmin trial b < w ∧ w < roundVmax trial b
      · rw [(search_succ_converged trial fitV0 vref fuel b acc w hfit hin).2] at ht
        rw [(search_succ_converged trial fitV0 vref fuel b acc w hfit hin).1]
        rw [List.mem_singleton.1 ht] at hp
        exact hp
      · rw [(search_succ_rebracket trial fitV0 vref fuel b acc w hfit hin).2] at ht
        rw [(search_succ_rebracket trial fitV0 vref fuel b acc w hfit hin).1]
        rcases List.mem_cons.1 ht with rfl | ht2
        · exact search_points_supset_acc trial fitV0 vref fuel _ _ p hp
        · exact fitInputs_subset_result trial fitV0 vref fuel _ _ t ht2 p hp

/-- C4: the accumulated point set of the Equilibrium Volume Search grows
monotonically across rounds — the successive point sets fed to the EOS Fitter
form a chain under inclusion (every point of an earlier round's fit input is
in every later fit input), and every point of every fit input is still present
in the point set carried by the final result, even when the round that
produced it was superseded by re-bracketing. -/
theorem equilibrium_volume_search_points_monotone (trial : ℚ → ℚ × ℚ)
    (fitV0 : List (ℚ × ℚ) → Option ℚ) (vref : ℚ) (fuel : ℕ) (b : ScaleBracket)
    (acc : List (ℚ × ℚ)) :
    List.Pairwise (fun t1 t2 => ∀ p ∈ t1, p ∈ t2)
        (fitInputs trial fitV0 vref fuel b acc) ∧
      ∀ t ∈ fitInputs trial fitV0 vref fuel b acc,
        ∀ p ∈ t, p ∈ (search trial fitV0 vref fuel b acc).points :=
  ⟨fitInputs_chain trial fitV0 vref fuel b acc,
    fitInputs_subset_result trial fitV0 vref fuel b acc⟩

theorem fitInputs_length_le (trial : ℚ → ℚ × ℚ)
    (fitV0 : List (ℚ × ℚ) → Option ℚ) (vref : ℚ) :
    ∀ (fuel : ℕ) (b : ScaleBracket) (acc : List (ℚ × ℚ)),
      (fitInputs trial fitV0 vref fuel b acc).length ≤ fuel
  | 0, b, acc => by
    rw [(search_zero trial fitV0 vref b acc).2]
    exact Nat.le_refl 0
  | fuel + 1, b, acc => by
    cases hfit : fitV0 (acc ++ sampleScaleBracket trial b) with
    | none =>
      rw [(search_succ_eos_fail trial fitV0 vref fuel b acc hfit).2]
      simp
    | some w =>
      by_cases hin : roundVmin trial b < w ∧ w < roundVmax trial b
      · rw [(search_succ_converged trial fitV0 vref fuel b acc w hfit hin).2]
        simp
      · rw [(search_succ_rebracket trial fitV0 vref fuel b acc w hfit hin).2]
        simpa using fitInputs_length_le trial fitV0 vref fuel _ _

/-- C7: the Equilibrium Volume Search always terminates. The loop executes at
most `maxRounds` rounds (one fit input per round); when the round budget is
exhausted without convergence the result is the BracketNonConvergence failure
carrying the accumulated points, never an unbounded loop. Conversely, when the
trial volumes follow the spec's linear law `volume = s · vref` on a bracket of
positive span and the EOS Fitter consistently recovers the true minimum
`vstar`, the search converges to `vstar` within 2 rounds — inside the default
maximum of 5 — for *any* position of the true minimum (the re-bracketing rule
re-centers the doubled-span bracket on the escaped V0, which in particular
covers every minimum within the documented bounded multiple of the initial
span). -/
theorem equilibrium_volume_search_terminates (trial : ℚ → ℚ × ℚ)
    (fitV0 : List (ℚ × ℚ) → Option ℚ) (vref : ℚ) (b : ScaleBracket)
    (acc : List (ℚ × ℚ)) (E : ℚ → ℚ) (vstar : ℚ) (fuel : ℕ) :
    search trial fitV0 vref 0 b acc = SearchResult.bracketNonConvergence acc ∧
    (fitInputs trial fitV0 vref fuel b acc).length ≤ fuel ∧
    (0 < vref → b.lo < b.mid → b.mid < b.hi →
      (∀ s, trial s = (s * vref, E s)) →
      (∀ pts, fitV0 pts = some vstar) →
      2 ≤ fuel →
      ∃ pts, search trial fitV0 vref fuel b acc = SearchResult.converged vstar pts ∧
        (fitInputs trial fitV0 vref fuel b acc).length ≤ 2) := by
  refine ⟨(search_zero trial fitV0 vref b acc).1,
    fitInputs_length_le trial fitV0 vref fuel b acc, ?_⟩
  intro hvref hlm hmh htrial hfit hfuel
  obtain ⟨k, rfl⟩ : ∃ k, fuel = k + 2 := ⟨fuel - 2, by omega⟩
  have hbmin : bracketMin b = b.lo := by
    rw [bracketMin, min_eq_left (le_of_lt hmh)]
    exact min_eq_left (le_of_lt hlm)
  have hbmax : bracketMax b = b.hi := by
    rw [bracketMax, max_eq_right (le_of_lt hmh)]
    exact max_eq_right (le_of_lt (lt_trans hlm hmh))
  have hspan : 0 < bracketMax b - bracketMin b := by
    rw [hbmin, hbmax]
    have := lt_trans hlm hmh
    linarith
  by_cases hin1 : roundVmin trial b < vstar ∧ vstar < roundVmax trial b
  · obtain ⟨hs, hf⟩ :=
      search_succ_converged trial fitV0 vref (k + 1) b acc vstar (hfit _) hin1
    exact ⟨acc ++ sampleScaleBracket trial b, hs, by rw [hf]; simp⟩
  · obtain ⟨hs1, hf1⟩ :=
      search_succ_rebracket trial fitV0 vref (k + 1) b acc vstar (hfit _) hin1
    set s0 := vstar / vref with hs0def
    have hs0 : s0 * vref = vstar := div_mul_cancel₀ vstar (ne_of_gt hvref)
    set spn := bracketMax b - bracketMin b with hspn
    have hlt1 : (s0 - spn) * vref < s0 * vref :=
      mul_lt_mul_of_pos_right (by linarith) hvref
    have hlt2 : s0 * vref < (s0 + spn) * vref :=
      mul_lt_mul_of_pos_right (by linarith) hvref
    have hin2 : roundVmin trial (rebracket b s0) < vstar ∧
        vstar < roundVmax trial (rebracket b s0) := by
      constructor
      · show min (trial (rebracket b s0).lo).1
          (min (trial (rebracket b s0).mid).1 (trial (rebracket b s0).hi).1) < vstar
        rw [htrial, htrial, htrial]
        show min ((s0 - spn) * vref) (min (s0 * vref) ((s0 + spn) * vref)) < vstar
        rw [min_eq_left (le_of_lt hlt2), min_eq_left (le_of_lt hlt1), ← hs0]
        exact hlt1
      · show vstar < max (trial (rebracket b s0).lo).1
          (max (trial (rebracket b s0).mid).1 (trial (rebracket b s0).hi).1)
        rw [htrial, htrial, htrial]
        show vstar < max ((s0 - spn) * vref) (max (s0 * vref) ((s0 + spn) * vref))
        rw [max_eq_right (le_of_lt hlt2), max_eq_right (le_of_lt (lt_trans hlt1 hlt2)),
          ← hs0]
        exact hlt2
    obtain ⟨hs2, hf2⟩ :=
      search_succ_converged trial fitV0 vref k (rebracket b s0)
        (acc ++ sampleScaleBracket trial b) vstar (hfit _) hin2
    refine ⟨(acc ++ sampleScaleBracket trial b) ++
      sampleScaleBracket trial (rebracket b s0), ?_, ?_⟩
    · rw [hs1, hs2]
    · rw [hf1, hf2]
      simp

/-- Linear trial oracle for the C7 witness: volume law `s · 1`, energy 0. -/
def trialLin : ℚ → ℚ × ℚ := fun s => (s * 1, 0)

/-- Zero-energy curve for the C7 witness. -/
def EZero : ℚ → ℚ := fun _ => 0

/-- Fit oracle for the C7 witness: always recovers the true minimum V0 = 10,
far outside the initial bracket, forcing one re-bracketing round. -/
def fitTen : List (ℚ × ℚ) → Option ℚ := fun _ => some 10

/-- Witness for C7 at a concrete run: initial bracket (0.8, 1.0, 1.2), true
minimum at volume 10; the search converges to 10 within 2 of its 5 rounds. -/
theorem equilibrium_volume_search_terminates_witness :
    ∃ pts, search trialLin fitTen 1 5 ⟨4/5, 1, 6/5⟩ [] =
        SearchResult.converged 10 pts ∧
      (fitInputs trialLin fitTen 1 5 ⟨4/5, 1, 6/5⟩ []).length ≤ 2 :=
  (equilibrium_volume_search_terminates trialLin fitTen 1 ⟨4/5, 1, 6/5⟩ [] EZero 10
      5).2.2
    (by norm_num) (by show (4 : ℚ)/5 < 1; norm_num) (by show (1 : ℚ) < 6/5; norm_num)
    (fun s => rfl) (fun pts => rfl) (by norm_num)

/-- The three trial outcomes pinned by the repository test
`tests/vasp/flows/test_mpmorph.py::test_equilibrium_volume_maker`: the scale
factors 0.8, 1.0, 1.2 yield the final volumes 82.59487098351644,
161.31810738968053, 278.7576895693679 ų and energies -13.44200043,
-35.97470303, -32.48531985 eV. -/
def trialSi : ℚ → ℚ × ℚ := fun s =>
  if s = 4/5 then (8259487098351644 / 100000000000000, -1344200043 / 100000000)
  else if s = 1 then (16131810738968053 / 100000000000000, -3597470303 / 100000000)
  else if s = 6/5 then (2787576895693679 / 10000000000000, -3248531985 / 100000000)
  else (0, 0)

/-- The Birch-Murnaghan fitted V0 the same test pins:
`v0 = 171.51226566279973` (asserted in the test as `≈ 171.51227`). -/
def v0Si : ℚ := 17151226566279973 / 100000000000000

/-- EOS-fit oracle of the Si scenario: on the three accumulated points it
returns the pinned Birch-Murnaghan V0. -/
def fitSi : List (ℚ × ℚ) → Option ℚ := fun pts =>
  if pts = [trialSi (4/5), trialSi 1, trialSi (6/5)] then some v0Si else none

theorem trialSi_eval_lo :
    trialSi (4/5) = (8259487098351644 / 100000000000000, -1344200043 / 100000000) := by
  unfold trialSi
  exact if_pos rfl

theorem trialSi_eval_mid :
    trialSi 1 = (16131810738968053 / 100000000000000, -3597470303 / 100000000) := by
  unfold trialSi
  rw [if_neg (by norm_num), if_pos rfl]

theorem trialSi_eval_hi :
    trialSi (6/5) = (2787576895693679 / 10000000000000, -3248531985 / 100000000) := by
  unfold trialSi
  rw [if_neg (by norm_num), if_neg (by norm_num), if_pos rfl]

/-- C2: the concrete scenario of the repository test — reference structure of
volume 161.31810738968053 ų, bracket scale factors {0.8, 1.0, 1.2}, trial
energies {-13.44200043, -35.97470303, -32.48531985} eV at volumes
{82.59487098351644, 161.31810738968053, 278.7576895693679} ų. The fitted
Birch-Murnaghan minimum lies strictly inside the sampled volume range, so the
search converges in exactly one round (one EOS-fit call) and returns the
structure rescaled to V0 = 171.51226566279973 ≈ 171.51 ų. -/
theorem equilibrium_volume_search_si_scenario :
    search trialSi fitSi (16131810738968053 / 100000000000000) 5 ⟨4/5, 1, 6/5⟩ [] =
        SearchResult.converged v0Si [trialSi (4/5), trialSi 1, trialSi (6/5)] ∧
      (fitInputs trialSi fitSi (16131810738968053 / 100000000000000) 5 ⟨4/5, 1, 6/5⟩
          []).length = 1 ∧
      |v0Si - 17151227 / 100000| < 1 / 100000 ∧
      |v0Si - 17151 / 100| < 1 / 100 ∧
      8259487098351644 / 100000000000000 < v0Si ∧
      v0Si < 2787576895693679 / 10000000000000 := by
  have hfit : fitSi ([] ++ sampleScaleBracket trialSi ⟨4/5, 1, 6/5⟩) = some v0Si := by
    unfold fitSi
    exact if_pos rfl
  have hin : roundVmin trialSi ⟨4/5, 1, 6/5⟩ < v0Si ∧
      v0Si < roundVmax trialSi ⟨4/5, 1, 6/5⟩ := by
    constructor
    · show min (trialSi (4/5)).1 (min (trialSi 1).1 (trialSi (6/5)).1) < v0Si
      simp only [trialSi_eval_lo, trialSi_eval_mid, trialSi_eval_hi]
      norm_num [min_def, v0Si]
    · show v0Si < max (trialSi (4/5)).1 (max (trialSi 1).1 (trialSi (6/5)).1)
      simp only [trialSi_eval_lo, trialSi_eval_mid, trialSi_eval_hi]
      norm_num [max_def, v0Si]
  obtain ⟨hs, hf⟩ :=
    search_succ_converged trialSi fitSi (16131810738968053 / 100000000000000) 4
      ⟨4/5, 1, 6/5⟩ [] v0Si hfit hin
  refine ⟨hs, by rw [hf]; rfl, ?_, ?_, ?_, ?_⟩
  · rw [abs_sub_lt_iff]
    constructor <;> norm_num [v0Si]
  · rw [abs_sub_lt_iff]
    constructor <;> norm_num [v0Si]
  · norm_num [v0Si]
  · norm_num [v0Si]

/-! ## Trial Runner volume scaling (C3) -/

/-- Modelled from the spec: the trial-structure generation of the Trial Runner
(`EquilibriumVolumeMaker` in atomate2/common/flows/mpmorph.py, absent from
src/). The repository's own tests pin the trial volumes at `scale³ · V_ref`
(test_mpmorph.py: 0.8³ · 161.31810738968053 = 82.59487098351644…, 1.2³ ·
161.31810738968053 = 278.7576895693679…, and the recursion test's POSCAR
directories Si_3.48 / Si_4.35 / Si_5.22 are named by the lattice constants
0.8·a, a, 1.2·a), i.e. the scale factor multiplies each lattice vector
linearly. -/
def scaleLattice (s : ℚ) (L : Matrix (Fin 3) (Fin 3) ℚ) : Matrix (Fin 3) (Fin 3) ℚ :=
  s • L

/-- Unsigned cell volume of a lattice matrix. -/
def latticeVolume (L : Matrix (Fin 3) (Fin 3) ℚ) : ℚ := |L.det|

/-- Trial volume as the code produces it: `s³ · vref`. -/
def runTrialVolume (vref s : ℚ) : ℚ := s ^ 3 * vref

/-- Trial volume as the spec's sentence words it (`run_trial` scales the
lattice "by `scale_factor**(1/3)` … so that volume scales by `scale_factor`"):
`s · vref`. Stated from the spec's words for comparison with
`runTrialVolume`. -/
def runTrialVolume_spec (vref s : ℚ) : ℚ := s * vref

/-- C3 (counterexample): at scale factor S = 0.8 on the test's reference
structure (volume 161.31810738968053 ų), the volume the code produces —
pinned by the repository test at 82.59487098351644 ų — is S³ times the
reference volume, not S times it as the claim states; the claim's predicted
volume is off by more than 46 ų. -/
theorem run_trial_volume_spec_counterexample :
    runTrialVolume (16131810738968053 / 100000000000000) (4/5) ≠
        runTrialVolume_spec (16131810738968053 / 100000000000000) (4/5) ∧
      |runTrialVolume (16131810738968053 / 100000000000000) (4/5) -
          8259487098351644 / 100000000000000| < 1 / 1000000 ∧
      40 < |runTrialVolume_spec (16131810738968053 / 100000000000000) (4/5) -
          8259487098351644 / 100000000000000| ∧
      latticeVolume (scaleLattice (4/5)
          (Matrix.diagonal fun i : Fin 3 =>
            if i = 0 then 16131810738968053 / 100000000000000 else 1)) =
        runTrialVolume (16131810738968053 / 100000000000000) (4/5) := by
  refine ⟨?_, ?_, ?_, ?_⟩
  · norm_num [runTrialVolume, runTrialVolume_spec]
  · rw [abs_sub_lt_iff]
    constructor <;> norm_num [runTrialVolume]
  · have hpos : (0 : ℚ) < runTrialVolume_spec (16131810738968053 / 100000000000000)
        (4/5) - 8259487098351644 / 100000000000000 := by
      norm_num [runTrialVolume_spec]
    rw [abs_of_pos hpos]
    norm_num [runTrialVolume_spec]
  · unfold latticeVolume scaleLattice
    rw [Matrix.det_smul, Matrix.det_diagonal, Fin.prod_univ_three]
    rw [if_pos rfl, if_neg (by decide : ¬(1 : Fin 3) = 0),
      if_neg (by decide : ¬(2 : Fin 3) = 0), Fintype.card_fin]
    rw [abs_of_pos (by norm_num)]
    norm_num [runTrialVolume]

/-- C3 (amended): `run_trial` scales each lattice vector linearly by the scale
factor S itself (atomic positions isotropically), so the trial structure's
volume equals S³ — not S — times the reference structure's volume. -/
theorem run_trial_scales_volume_cubed (s : ℚ) (L : Matrix (Fin 3) (Fin 3) ℚ)
    (hs : 0 < s) :
    latticeVolume (scaleLattice s L) = s ^ 3 * latticeVolume L ∧
      ∀ vref : ℚ, runTrialVolume vref s = s ^ 3 * vref := by
  constructor
  · unfold latticeVolume scaleLattice
    rw [Matrix.det_smul, abs_mul, Fintype.card_fin, abs_of_pos (pow_pos hs 3)]
  · intro vref
    rfl

/-- Witness for the amended C3 at S = 2 on the identity lattice. -/
theorem run_trial_scales_volume_cubed_witness :
    latticeVolume (scaleLattice 2 (1 : Matrix (Fin 3) (Fin 3) ℚ)) =
        2 ^ 3 * latticeVolume (1 : Matrix (Fin 3) (Fin 3) ℚ) ∧
      runTrialVolume (latticeVolume (1 : Matrix (Fin 3) (Fin 3) ℚ)) 2 =
        2 ^ 3 * latticeVolume (1 : Matrix (Fin 3) (Fin 3) ℚ) :=
  ⟨(run_trial_scales_volume_cubed 2 (1 : Matrix (Fin 3) (Fin 3) ℚ) (by norm_num)).1,
    (run_trial_scales_volume_cubed 2 (1 : Matrix (Fin 3) (Fin 3) ℚ) (by norm_num)).2
      (latticeVolume (1 : Matrix (Fin 3) (Fin 3) ℚ))⟩
